import Mathlib

/-!
Verification of the Wasm export pipeline of the dao-dao-indexer repository
(the `wasm` handler: `match`, `getCodeId`, `process`).

The TypeScript source is shallowly embedded: pure helpers become Lean
functions, the database/state effects of `process` become explicit state
passing, and external library collaborators (bech32 encoding, the
`ContractInfo` protobuf decoder, `JSON.parse`, the RPC client) become
function parameters or oracles. Base64 decoding (`fromBase64` of
`@cosmjs/encoding`) and UTF-8 decoding (`fromUtf8`, a fatal TextDecoder)
are implemented concretely, since the control flow of `match` branches on
their failure.
-/

namespace DaoDaoIndexer

/-! ## Base64 decoding (models `fromBase64` of `@cosmjs/encoding`) -/

/-- Index of a character in the standard base64 alphabet. -/
def b64Index (c : Char) : Option Nat :=
  if 'A' ≤ c ∧ c ≤ 'Z' then some (c.toNat - 65)
  else if 'a' ≤ c ∧ c ≤ 'z' then some (c.toNat - 97 + 26)
  else if '0' ≤ c ∧ c ≤ '9' then some (c.toNat - 48 + 52)
  else if c = '+' then some 62
  else if c = '/' then some 63
  else none

/-- Decode a base64 character list, four characters (three bytes) at a
time; padding characters are accepted only in the final group. -/
def base64DecodeChars : List Char → Option (List Nat)
  | [] => some []
  | c0 :: c1 :: c2 :: c3 :: rest =>
    match b64Index c0, b64Index c1 with
    | some i0, some i1 =>
      if c2 = '=' ∧ c3 = '=' ∧ rest = [] then
        some [i0 * 4 + i1 / 16]
      else if c3 = '=' ∧ rest = [] then
        match b64Index c2 with
        | some i2 => some [i0 * 4 + i1 / 16, (i1 % 16) * 16 + i2 / 4]
        | none => none
      else
        match b64Index c2, b64Index c3 with
        | some i2, some i3 =>
          (base64DecodeChars rest).map
            (fun bs =>
              (i0 * 4 + i1 / 16) :: ((i1 % 16) * 16 + i2 / 4) ::
                ((i2 % 4) * 64 + i3) :: bs)
        | _, _ => none
    | _, _ => none
  | _ => none

/-- Decode a base64 string to bytes; fails (the library throws) when the
string is not valid padded base64. -/
def base64Decode (s : String) : Option (List Nat) :=
  base64DecodeChars s.data

/-! ## UTF-8 decoding (models `fromUtf8` of `@cosmjs/encoding`, a fatal
TextDecoder: rejects truncated sequences, stray continuation bytes,
overlong forms, surrogates, and code points past U+10FFFF) -/

/-- Whether a byte is a UTF-8 continuation byte (10xxxxxx). -/
def isUtf8Cont (b : Nat) : Bool :=
  0x80 ≤ b && b < 0xC0

/-- Decode a byte list as UTF-8 into characters; none on any invalid
sequence. -/
def utf8Chars : List Nat → Option (List Char)
  | [] => some []
  | b :: bs =>
    if b < 0x80 then
      (utf8Chars bs).map (Char.ofNat b :: ·)
    else if b < 0xC2 then
      none
    else if b < 0xE0 then
      match bs with
      | b1 :: bs1 =>
        if isUtf8Cont b1 then
          (utf8Chars bs1).map (Char.ofNat ((b - 0xC0) * 0x40 + (b1 - 0x80)) :: ·)
        else none
      | [] => none
    else if b < 0xF0 then
      match bs with
      | b1 :: b2 :: bs2 =>
        if isUtf8Cont b1 ∧ isUtf8Cont b2 then
          let cp := (b - 0xE0) * 0x1000 + (b1 - 0x80) * 0x40 + (b2 - 0x80)
          if 0x800 ≤ cp ∧ ¬(0xD800 ≤ cp ∧ cp ≤ 0xDFFF) then
            (utf8Chars bs2).map (Char.ofNat cp :: ·)
          else none
        else none
      | _ => none
    else if b < 0xF5 then
      match bs with
      | b1 :: b2 :: b3 :: bs3 =>
        if isUtf8Cont b1 ∧ isUtf8Cont b2 ∧ isUtf8Cont b3 then
          let cp := (b - 0xF0) * 0x40000 + (b1 - 0x80) * 0x1000 +
            (b2 - 0x80) * 0x40 + (b3 - 0x80)
          if 0x10000 ≤ cp ∧ cp ≤ 0x10FFFF then
            (utf8Chars bs3).map (Char.ofNat cp :: ·)
          else none
        else none
      | _ => none
    else none

/-- Decode bytes to a string, or none when not valid UTF-8. -/
def utf8Decode (bs : List Nat) : Option String :=
  (utf8Chars bs).map String.mk

/-! ## Canonical key form -/

/-- Comma-joined decimal byte list, the canonical storage form of a user
key (`keyData.slice(...).join(',')` in the source). -/
def dbKeyJoin (bytes : List Nat) : String :=
  String.intercalate "," (bytes.map toString)

/-! ## JSON values

The source calls the JavaScript `JSON.parse`; the parser itself is an
external collaborator and is a parameter of the embedding. Only a value
universe is fixed here. -/

/-- Universe of JSON values produced by the external parser. -/
inductive Json where
  | null : Json
  | bool (b : Bool) : Json
  | num (n : Int) : Json
  | str (s : String) : Json
  | arr (elems : List Json) : Json
  | obj (fields : List (String × Json)) : Json

/-- Concrete parser used in closed instances: the restriction of the
JavaScript `JSON.parse` to nonnegative decimal integer literals (on which
the two agree); every other string is rejected. -/
def jsonParseInt (s : String) : Option Json :=
  if s ≠ "" ∧ s.data.all Char.isDigit then
    some (Json.num (s.data.foldl (fun n c => n * 10 + ((c.toNat : Int) - 48)) 0))
  else none

/-! ## Trace records and export events (types from `@/types`) -/

/-- Operation of a trace record. -/
inductive TraceOperation where
  | write : TraceOperation
  | delete : TraceOperation
deriving DecidableEq

/-- Metadata of a trace record (only the block height is used). -/
structure TraceMetadata where
  blockHeight : Nat
deriving DecidableEq

/-- One record of the trace pipe. `key` and `value` are base64 strings as
they arrive; block height and time are integer-valued (the source passes
them through `BigInt(...).toString()`, the identity on naturals). -/
structure TraceRecord where
  operation : TraceOperation
  key : String
  value : String
  metadata : TraceMetadata
  blockTimeUnixMs : Nat
deriving DecidableEq

/-- Decoded `ContractInfo` protobuf (code ID plus metadata strings). -/
structure ContractInfo where
  codeId : Nat
  admin : String
  creator : String
  label : String
deriving DecidableEq

/-- Payload of a contract-lifecycle export event. -/
structure ContractEventData where
  address : String
  codeId : Nat
  admin : String
  creator : String
  label : String
  blockHeight : Nat
  blockTimeUnixMs : Nat
deriving DecidableEq

/-- Payload of a state export event (`ParsedWasmStateEvent`). `codeId` is
an integer because contract rows read back from the database may carry 0
or -1 for unknown code IDs. -/
structure WasmStateEventData where
  codeId : Int
  contractAddress : String
  blockHeight : Nat
  blockTimeUnixMs : Nat
  key : String
  value : String
  valueJson : Option Json
  delete : Bool

/-- An export event emitted by `match`, with its in-batch dedup id. -/
inductive WasmExportEvent where
  | contract (id : String) (data : ContractEventData) : WasmExportEvent
  | state (id : String) (data : WasmStateEventData) : WasmExportEvent

/-- Result of `match` on one trace record: an uncaught exception (invalid
base64 where the source does not catch), no event, or an event. -/
inductive MatchResult where
  | thrown : MatchResult
  | noEvent : MatchResult
  | event (e : WasmExportEvent) : MatchResult

/-- External collaborators of the handler: bech32 address rendering, the
`ContractInfo` protobuf decoder, and `JSON.parse`. -/
structure Externals where
  toBech32 : String → List Nat → String
  decodeContractInfo : List Nat → Option ContractInfo
  jsonParse : String → Option Json

/-! ## Key layout constants (`wasm` handler maker) -/

/-- DEFAULT_CONTRACT_BYTE_LENGTH in the source. -/
def defaultContractByteLength : Nat := 32

/-- CONTRACT_KEY_PREFIX: 0x04 on Terra Classic (chain `columbus-5`),
0x02 elsewhere. -/
def contractKeyPrefixByte (isTerraClassic : Bool) : Nat :=
  if isTerraClassic then 0x04 else 0x02

/-- CONTRACT_STORE_PREFIX: 0x05 on Terra Classic, 0x03 elsewhere. -/
def contractStorePrefixByte (isTerraClassic : Bool) : Nat :=
  if isTerraClassic then 0x05 else 0x03

/-- Split a decoded key into contract address bytes and user key bytes,
mirroring the offset arithmetic and the too-short guard of `match`.

On Terra Classic the contract byte length is read from `keyData[1]`. When
the key is a single byte, the JavaScript source reads `undefined` there:
the guard `keyData.length < contractAddressOffset + contractByteLength`
compares against NaN and is false, `keyData.slice(2, 2 + undefined)`
becomes `slice(2, NaN)` = the empty array, and
`keyData.slice(2 + undefined)` becomes `slice(NaN)` = `slice(0)`, the
whole array; that degenerate case is therefore NOT rejected and is
embedded as `some ([], keyData)`. -/
def contractParts (isTerraClassic : Bool) (keyData : List Nat) :
    Option (List Nat × List Nat) :=
  if isTerraClassic then
    match keyData.get? 1 with
    | none => some ([], keyData)
    | some len =>
      if keyData.length < 2 + len then none
      else some ((keyData.drop 2).take len, keyData.drop (2 + len))
  else
    if keyData.length < 1 + defaultContractByteLength then none
    else
      some ((keyData.drop 1).take defaultContractByteLength,
        keyData.drop (1 + defaultContractByteLength))

/-- The `match` handler: classify one trace record into nothing, a
contract-lifecycle event, or a state event. `bech32Hrp` is the configured
bech32 prefix string of the chain. -/
def matchTrace (bech32Hrp : String) (isTerraClassic : Bool)
    (ext : Externals) (trace : TraceRecord) : MatchResult :=
  match base64Decode trace.key with
  | none => .thrown
  | some keyData =>
    match keyData.head? with
    | none => .noEvent
    | some b0 =>
      if b0 ≠ contractStorePrefixByte isTerraClassic ∧
          b0 ≠ contractKeyPrefixByte isTerraClassic then
        .noEvent
      else
        match contractParts isTerraClassic keyData with
        | none => .noEvent
        | some (addrBytes, keyBytes) =>
          let contractAddress := ext.toBech32 bech32Hrp addrBytes
          let key := dbKeyJoin keyBytes
          let blockHeight := trace.metadata.blockHeight
          let blockTimeUnixMs := trace.blockTimeUnixMs
          if trace.operation = .write ∧
              b0 = contractKeyPrefixByte isTerraClassic then
            match base64Decode trace.value with
            | none => .thrown
            | some protobufContractInfo =>
              match ext.decodeContractInfo protobufContractInfo with
              | none => .noEvent
              | some contractInfo =>
                if contractInfo.codeId = 0 then .noEvent
                else
                  .event (.contract
                    (String.intercalate ":"
                      ["contract", toString blockHeight, contractAddress])
                    { address := contractAddress
                      codeId := contractInfo.codeId
                      admin := contractInfo.admin
                      creator := contractInfo.creator
                      label := contractInfo.label
                      blockHeight := blockHeight
                      blockTimeUnixMs := blockTimeUnixMs })
          else
            let value :=
              if trace.value = "" then trace.value
              else
                match base64Decode trace.value with
                | none => trace.value
                | some valueBytes => (utf8Decode valueBytes).getD trace.value
            let valueJson :=
              if trace.operation ≠ .delete ∧ value ≠ "" then
                ext.jsonParse value
              else none
            .event (.state
              (String.intercalate ":"
                ["state", toString blockHeight, contractAddress, key])
              { codeId := 0
                contractAddress := contractAddress
                blockHeight := blockHeight
                blockTimeUnixMs := blockTimeUnixMs
                key := key
                value := value
                valueJson := valueJson
                delete := trace.operation = .delete })

/-! ## Allowlist filter (`CONTRACT_STATE_EVENT_KEY_ALLOWLIST` and the
filter inside `exportContractsAndEvents`) -/

/-- One allowlist rule after the symbolic code-ID keys have been resolved
by the external Wasm-code registry; `stateKeys` are already in canonical
comma-joined form (`dbKeyForKeys`). -/
structure StateEventAllowlistRule where
  codeIds : List Int
  stateKeys : List String
deriving DecidableEq

/-- A Contract row as read back from the database. -/
structure ContractRow where
  address : String
  codeId : Int
  instantiatedAtBlockHeight : Nat
  instantiatedAtBlockTimeUnixMs : Nat
deriving DecidableEq

/-- The keep predicate of the allowlist filter, mirroring
`!codeId || !allowlist.some(({codeIds, stateKeys}) => codeIds.includes(codeId) && !stateKeys.includes(event.key))`;
a missing contract row leaves `codeId` undefined, which is falsy. -/
def keepStateEvent (allowlist : List StateEventAllowlistRule)
    (contracts : List ContractRow) (event : WasmStateEventData) : Bool :=
  match (contracts.find? (fun c => c.address = event.contractAddress)).map
      (fun c => c.codeId) with
  | none => true
  | some codeId =>
    decide (codeId = 0) ||
      ! allowlist.any (fun rule =>
        rule.codeIds.contains codeId && ! rule.stateKeys.contains event.key)

/-- The filter step of `process`: applied only when the chain has an
allowlist whose resolved rules are non-empty (`if (allowlist?.length)`). -/
def filterStateEvents (allowlist : Option (List StateEventAllowlistRule))
    (contracts : List ContractRow) (events : List WasmStateEventData) :
    List WasmStateEventData :=
  match allowlist with
  | some rules =>
    if rules.length ≠ 0 then events.filter (keepStateEvent rules contracts)
    else events
  | none => events

/-! ## Contract existence back-fill (start of `exportContractsAndEvents`) -/

/-- First-occurrence deduplication, the order `[...new Set(xs)]` yields. -/
def dedupFirst : List String → List String
  | [] => []
  | a :: rest => a :: (dedupFirst rest).filter (fun b => b ≠ a)

/-- The `uniqueContracts` list of `process`. -/
def uniqueContracts (stateEvents : List WasmStateEventData) : List String :=
  dedupFirst (stateEvents.map (fun e => e.contractAddress))

/-- The row built for one address:
`stateEvents.find((event) => event.contractAddress === address)` supplies
the instantiation fields, and the code ID is initialized to 0. -/
def contractRowFromFirstEvent (stateEvents : List WasmStateEventData)
    (address : String) : Option ContractRow :=
  (stateEvents.find? (fun e => e.contractAddress = address)).map
    (fun event =>
      { address := address
        codeId := 0
        instantiatedAtBlockHeight := event.blockHeight
        instantiatedAtBlockTimeUnixMs := event.blockTimeUnixMs })

/-- Net effect of `Contract.bulkCreate(..., { ignoreDuplicates: true })`:
the rows actually inserted are those whose address has no existing
Contract row. -/
def backfillInsertedContracts (existingAddresses : List String)
    (stateEvents : List WasmStateEventData) : List ContractRow :=
  ((uniqueContracts stateEvents).filter
      (fun a => ! existingAddresses.contains a)).filterMap
    (contractRowFromFirstEvent stateEvents)

/-! ## Code-ID resolver (`getCodeId` with its LRU cache and retries) -/

/-- The in-memory code-ID cache, most recently inserted first. -/
abbrev CodeIdCache := List (String × Nat)

/-- Capacity of the LRU (`new LRUCache({ max: 1000 })`). -/
def codeIdCacheMax : Nat := 1000

/-- Cache lookup. -/
def cacheGet (cache : CodeIdCache) (address : String) : Option Nat :=
  (cache.find? (fun p => p.1 = address)).map (fun p => p.2)

/-- Cache insertion, evicting beyond the capacity. -/
def cacheSet (cache : CodeIdCache) (address : String) (codeId : Nat) :
    CodeIdCache :=
  ((address, codeId) :: cache.filter (fun p => p.1 ≠ address)).take
    codeIdCacheMax

/-- Outcome of one RPC `getContract` call: metadata with a code ID, a
"not found: invalid request" error, or any other error (including a
disconnected client). -/
inductive RpcOutcome where
  | found (codeId : Nat) : RpcOutcome
  | notFound : RpcOutcome
  | rpcError : RpcOutcome
deriving DecidableEq

/-- One attempt of `loadIntoCache`: a found code ID is cached, "contract
not found" caches the 0 sentinel, and any other error rethrows (none). -/
def loadIntoCache (cache : CodeIdCache) (address : String) :
    RpcOutcome → Option CodeIdCache
  | .found codeId => some (cacheSet cache address codeId)
  | .notFound => some (cacheSet cache address 0)
  | .rpcError => none

/-- The retry combinator applied to `loadIntoCache`: attempts in order
until one succeeds, none when every listed attempt fails. -/
def retryLoadIntoCache (cache : CodeIdCache) (address : String) :
    List RpcOutcome → Option CodeIdCache
  | [] => none
  | outcome :: rest =>
    match loadIntoCache cache address outcome with
    | some cache1 => some cache1
    | none => retryLoadIntoCache cache address rest

/-- Options passed to the retry library. -/
structure RetryOptions where
  retriesMax : Nat
  exponential : Bool
  interval : Nat
deriving DecidableEq

/-- The options of the `getCodeId` retry call in the source: 3 attempts,
exponential backoff, 100 ms initial delay. -/
def getCodeIdRetryOptions : RetryOptions :=
  { retriesMax := 3, exponential := true, interval := 100 }

/-- The `getCodeId` resolver. The oracle lists the outcome each
successive RPC call would produce; at most `retriesMax` are consumed. A
cache hit short-circuits; when every retry fails the address is cached as
0 so the pipeline can proceed. -/
def getCodeId (cache : CodeIdCache) (address : String)
    (oracle : List RpcOutcome) : Nat × CodeIdCache :=
  match cacheGet cache address with
  | some codeId => (codeId, cache)
  | none =>
    match retryLoadIntoCache cache address
        (oracle.take getCodeIdRetryOptions.retriesMax) with
    | some cache1 => ((cacheGet cache1 address).getD 0, cache1)
    | none =>
      let cache1 := cacheSet cache address 0
      ((cacheGet cache1 address).getD 0, cache1)

/-! ## Watermark update (tail of `process`) -/

/-- The singleton State row fields the export touches. -/
structure StateRow where
  lastWasmBlockHeightExported : Nat
  latestBlockHeight : Nat
  latestBlockTimeUnixMs : Nat
deriving DecidableEq

/-- Block height of an export event. -/
def eventBlockHeight : WasmExportEvent → Nat
  | .contract _ d => d.blockHeight
  | .state _ d => d.blockHeight

/-- Block time of an export event. -/
def eventBlockTimeUnixMs : WasmExportEvent → Nat
  | .contract _ d => d.blockTimeUnixMs
  | .state _ d => d.blockTimeUnixMs

/-- Whether an export event is a state event. -/
def isStateEvent : WasmExportEvent → Bool
  | .contract _ _ => false
  | .state _ _ => true

/-- The state events of a batch
(`events.flatMap((event) => event.type === 'state' ? event.data : [])`). -/
def stateEventsOf (events : List WasmExportEvent) : List WasmStateEventData :=
  events.filterMap (fun e =>
    match e with
    | .state _ d => some d
    | .contract _ _ => none)

/-- The comparator of `events.sort((a, b) => Number(a.data.blockHeight) - Number(b.data.blockHeight))`. -/
def eventHeightLe (a b : WasmExportEvent) : Bool :=
  eventBlockHeight a ≤ eventBlockHeight b

/-- The maximum block height of a batch. -/
def batchMaxHeight (events : List WasmExportEvent) : Nat :=
  (events.map eventBlockHeight).foldr max 0

/-- The effect of `process` on the singleton State row: an early return
when the batch has no state events, otherwise a single GREATEST-semantics
update taking height and time from the last event of the batch sorted by
block height. -/
def processStateUpdate (s : StateRow) (events : List WasmExportEvent) :
    StateRow :=
  if (stateEventsOf events).length = 0 then s
  else
    match (events.mergeSort eventHeightLe).getLast? with
    | none => s
    | some lastEvent =>
      { lastWasmBlockHeightExported :=
          max s.lastWasmBlockHeightExported (eventBlockHeight lastEvent)
        latestBlockHeight :=
          max s.latestBlockHeight (eventBlockHeight lastEvent)
        latestBlockTimeUnixMs :=
          max s.latestBlockTimeUnixMs (eventBlockTimeUnixMs lastEvent) }

/-! ## Accessors used to state the theorems -/

/-- The state payload of a match result, none otherwise. -/
def matchedState : MatchResult → Option WasmStateEventData
  | .event (.state _ d) => some d
  | _ => none

/-- The contract payload of a match result, none otherwise. -/
def matchedContract : MatchResult → Option ContractEventData
  | .event (.contract _ d) => some d
  | _ => none

/-! ## Spec-side predicate (for the allowlist refinement claim) -/

/-- Modelled from the spec words, for comparison with `keepStateEvent`:
keep a state event iff its post-resolution code ID is 0 or unknown, or,
for every allowlist rule whose resolved code-ID set contains it, the
event's canonical key is in that rule's state-keys set. -/
def keepStateEventSpec (allowlist : List StateEventAllowlistRule)
    (contracts : List ContractRow) (event : WasmStateEventData) : Prop :=
  match (contracts.find? (fun c => c.address = event.contractAddress)).map
      (fun c => c.codeId) with
  | none => True
  | some codeId =>
    codeId = 0 ∨
      ∀ rule ∈ allowlist, codeId ∈ rule.codeIds → event.key ∈ rule.stateKeys

/-! ## Concrete instances used in closed theorems -/

/-- Concrete externals for closed instances: a bech32-like address
renderer, a protobuf decoder recognizing `[8, 42]`, the proto3 wire form
of a ContractInfo whose code_id field is 42, and the integer-literal
restriction of `JSON.parse`. -/
def extConcrete : Externals :=
  { toBech32 := fun hrp bytes => hrp ++ "1" ++ dbKeyJoin bytes
    decodeContractInfo := fun bytes =>
      if bytes = [8, 42] then
        some { codeId := 42, admin := "a", creator := "c", label := "L" }
      else none
    jsonParse := jsonParseInt }

/-- Base64 of the 33-byte standard contract-info key: 0x02 followed by a
32-byte zero address. -/
def contractKeyB64 : String := "AgAAAAAAAAAAAAAAAAAAAAAAAAAAAAAAAAAAAAAAAAAA"

/-- Base64 of the 36-byte standard state key: 0x03, a 32-byte zero
address, then user key bytes [7, 7, 7]. -/
def stateKeyB64 : String := "AwAAAAAAAAAAAAAAAAAAAAAAAAAAAAAAAAAAAAAAAAAABwcH"

/-- Base64 of the 24-byte Terra Classic state key: 0x05, length byte
0x14, a 20-byte zero address, then user key bytes [9, 9]. -/
def terraStateKeyB64 : String := "BRQAAAAAAAAAAAAAAAAAAAAAAAAAAAkJ"

/-- A contract-info write whose value is the base64 of [8, 42]. -/
def traceContractInfoWrite : TraceRecord :=
  ⟨.write, contractKeyB64, "CCo=", ⟨100⟩, 1700⟩

/-- A state write whose value base64 "1234" decodes to the non-UTF-8
bytes [215, 109, 248]. -/
def traceStateNonUtf8 : TraceRecord :=
  ⟨.write, stateKeyB64, "1234", ⟨100⟩, 1700⟩

/-- A delete on a contract-info key. -/
def traceContractInfoDelete : TraceRecord :=
  ⟨.delete, contractKeyB64, "", ⟨100⟩, 1700⟩

/-- A Terra Classic state write with a length-prefixed key. -/
def traceTerraState : TraceRecord :=
  ⟨.write, terraStateKeyB64, "", ⟨100⟩, 1700⟩

/-- A one-byte Terra Classic key [0x05] (base64 "BQ==") with no length
byte. -/
def traceTerraShortKey : TraceRecord := ⟨.write, "BQ==", "", ⟨7⟩, 9⟩

/-- A one-byte standard key [0x02] (base64 "Ag=="), shorter than the
33-byte minimum. -/
def traceStdShortKey : TraceRecord := ⟨.write, "Ag==", "", ⟨100⟩, 1700⟩

/-- A one-rule allowlist covering code ID 100 with single state key
"9,9". -/
def allowRules : List StateEventAllowlistRule :=
  [{ codeIds := [100], stateKeys := ["9,9"] }]

/-- A contract table carrying one contract of code ID 100. -/
def allowContracts : List ContractRow :=
  [{ address := "c100", codeId := 100, instantiatedAtBlockHeight := 1,
     instantiatedAtBlockTimeUnixMs := 1 }]

/-- A state event of the code-ID-100 contract whose key the allowlist
lists. -/
def evAllow : WasmStateEventData :=
  { codeId := 0, contractAddress := "c100", blockHeight := 4,
    blockTimeUnixMs := 40, key := "9,9", value := "x", valueJson := none,
    delete := false }

/-- A state event at height 5 for contract "a", listed first. -/
def evA5 : WasmStateEventData :=
  { codeId := 0, contractAddress := "a", blockHeight := 5,
    blockTimeUnixMs := 50, key := "1", value := "", valueJson := none,
    delete := false }

/-- A state event at height 3 for contract "a", listed second. -/
def evA3 : WasmStateEventData :=
  { codeId := 0, contractAddress := "a", blockHeight := 3,
    blockTimeUnixMs := 30, key := "1", value := "", valueJson := none,
    delete := false }

/-! ## Helper lemmas -/

/-- In a pairwise-ordered list, every element is the last one or relates
to it. -/
theorem pairwiseGetLastTop {α : Type} {R : α → α → Prop} :
    ∀ (l : List α) (e : α), l.Pairwise R → l.getLast? = some e →
      ∀ x ∈ l, x = e ∨ R x e := by
  intro l
  induction l with
  | nil => intro e _ he; simp at he
  | cons a t ih =>
    intro e hp he x hx
    cases t with
    | nil =>
      simp only [List.getLast?_singleton, Option.some.injEq] at he
      subst he
      simp only [List.mem_singleton] at hx
      exact Or.inl hx
    | cons b t2 =>
      rw [List.getLast?_cons_cons] at he
      rcases List.mem_cons.mp hx with rfl | hx2
      · exact Or.inr ((List.pairwise_cons.mp hp).1 e
          (List.mem_of_mem_getLast? he))
      · exact ih e (List.pairwise_cons.mp hp).2 he x hx2

/-- Every member is bounded by the fold of max. -/
theorem leFoldrMax {l : List Nat} {x : Nat} (h : x ∈ l) :
    x ≤ l.foldr max 0 := by
  induction l with
  | nil => simp at h
  | cons a t ih =>
    rcases List.mem_cons.mp h with rfl | h2
    · exact Nat.le_max_left _ _
    · exact le_trans (ih h2) (Nat.le_max_right _ _)

/-- The fold of max is bounded by any upper bound of the list. -/
theorem foldrMaxLe {l : List Nat} {m : Nat} (h : ∀ x ∈ l, x ≤ m) :
    l.foldr max 0 ≤ m := by
  induction l with
  | nil => simp
  | cons a t ih =>
    simp only [List.foldr_cons]
    exact max_le (h a (List.mem_cons_self a t))
      (ih fun x hx => h x (List.mem_cons_of_mem _ hx))

/-- In a pairwise-ordered list, the first element satisfying a predicate
relates to every later element satisfying it. -/
theorem findFirstRel {α : Type} {R : α → α → Prop} {p : α → Bool} :
    ∀ (l : List α) (a : α), l.Pairwise R → l.find? p = some a →
      ∀ b ∈ l, p b = true → a = b ∨ R a b := by
  intro l
  induction l with
  | nil => intro a _ hf; simp at hf
  | cons x t ih =>
    intro a hp hf b hb hpb
    by_cases hpx : p x = true
    · rw [List.find?_cons_of_pos _ hpx, Option.some.injEq] at hf
      subst hf
      rcases List.mem_cons.mp hb with rfl | hb2
      · exact Or.inl rfl
      · exact Or.inr ((List.pairwise_cons.mp hp).1 b hb2)
    · rw [List.find?_cons_of_neg _ hpx] at hf
      rcases List.mem_cons.mp hb with rfl | hb2
      · exact absurd hpb hpx
      · exact ih a (List.pairwise_cons.mp hp).2 hf b hb2 hpb

/-- A freshly cached address resolves to the cached code ID: the
insertion is at the head and the capacity is positive. -/
theorem cacheGetCacheSetSelf (cache : CodeIdCache) (address : String)
    (codeId : Nat) :
    cacheGet (cacheSet cache address codeId) address = some codeId := by
  unfold cacheGet cacheSet codeIdCacheMax
  rw [show (1000 : Nat) = 999 + 1 from rfl, List.take_succ_cons]
  rw [List.find?_cons_of_pos _ (by simp)]
  rfl

/-! ## Claim theorems -/

/-- The Boolean keep predicate of the source filter coincides with the
spec-side predicate. -/
theorem keepStateEventIff (rules : List StateEventAllowlistRule)
    (contracts : List ContractRow) (e : WasmStateEventData) :
    keepStateEvent rules contracts e = true ↔
      keepStateEventSpec rules contracts e := by
  unfold keepStateEvent keepStateEventSpec
  cases hfind : (contracts.find? (fun c => c.address = e.contractAddress)).map
      (fun c => c.codeId) with
  | none => simp
  | some codeId =>
    simp only [Bool.or_eq_true, decide_eq_true_eq, Bool.not_eq_true',
      List.any_eq_false, Bool.and_eq_true, Bool.not_eq_true,
      List.contains_eq_any_beq, List.any_eq_true, beq_iff_eq, not_and,
      not_exists]
    constructor
    · rintro (h0 | hall)
      · exact Or.inl h0
      · refine Or.inr fun rule hrule hcode => ?_
        have h4 := hall rule hrule ⟨codeId, hcode, rfl⟩
        push_neg at h4
        obtain ⟨k, hk, hkey2⟩ := h4
        exact hkey2 ▸ hk
    · rintro (h0 | hall)
      · exact Or.inl h0
      · refine Or.inr fun rule hrule hx => ?_
        obtain ⟨x, hxmem, rfl⟩ := hx
        intro hforall
        exact hforall e.key (hall rule hrule hxmem) rfl

/-- C1: with a non-empty resolved allowlist, the filter of `process`
keeps a parsed state event iff its post-resolution code ID is 0/unknown
or, for every rule whose resolved code-ID set contains it, the event's
canonical key is in that rule's state-keys set (conjunctive across
overlapping rules); events of contracts mentioned by no rule pass
unchanged since the quantification is vacuous for them. -/
theorem allowlistFilterKeepIff (rules : List StateEventAllowlistRule)
    (hne : rules ≠ []) (contracts : List ContractRow)
    (events : List WasmStateEventData) (e : WasmStateEventData) :
    e ∈ filterStateEvents (some rules) contracts events ↔
      e ∈ events ∧ keepStateEventSpec rules contracts e := by
  show e ∈ (if rules.length ≠ 0 then
      events.filter (keepStateEvent rules contracts) else events) ↔ _
  rw [if_pos (fun h => hne (List.eq_nil_of_length_eq_zero h))]
  rw [List.mem_filter, keepStateEventIff]

/-- C1 witness: the iff instantiated at a concrete allowlist, contract
table and event. -/
theorem allowlistFilterKeepIffWitness :
    evAllow ∈ filterStateEvents (some allowRules) allowContracts [evAllow] ↔
      evAllow ∈ [evAllow] ∧ keepStateEventSpec allowRules allowContracts evAllow :=
  allowlistFilterKeepIff allowRules (by decide) allowContracts [evAllow] evAllow

/-- C3: the stored last_wasm_block_height_exported never decreases across
an execution of the batch processor: both on the early return (no state
events) and on the GREATEST-semantics update, the new value is at least
the old one. -/
theorem watermarkMonotonic (s : StateRow) (events : List WasmExportEvent) :
    s.lastWasmBlockHeightExported ≤
      (processStateUpdate s events).lastWasmBlockHeightExported := by
  unfold processStateUpdate
  split
  · exact le_refl _
  · split
    · exact le_refl _
    · exact Nat.le_max_left _ _

/-- C2 (amended): after processing a batch that contains at least one
state event and whose maximum block height is H, the stored
last_wasm_block_height_exported equals max(previous, H), and
latest_block_height and latest_block_time_unix_ms are advanced with MAX
semantics, the time being taken from an event of maximal height in the
batch. -/
theorem watermarkMaxSemantics (s : StateRow) (events : List WasmExportEvent)
    (hstate : (stateEventsOf events).length ≠ 0) :
    ∃ e ∈ events, eventBlockHeight e = batchMaxHeight events ∧
      processStateUpdate s events =
        { lastWasmBlockHeightExported :=
            max s.lastWasmBlockHeightExported (batchMaxHeight events)
          latestBlockHeight := max s.latestBlockHeight (batchMaxHeight events)
          latestBlockTimeUnixMs :=
            max s.latestBlockTimeUnixMs (eventBlockTimeUnixMs e) } := by
  have hne : events ≠ [] := by
    intro h
    subst h
    simp [stateEventsOf] at hstate
  have hperm := List.mergeSort_perm events eventHeightLe
  have hsne : events.mergeSort eventHeightLe ≠ [] := by
    intro h
    have hlen := @List.length_mergeSort _ eventHeightLe events
    rw [h] at hlen
    exact hne (List.eq_nil_of_length_eq_zero hlen.symm)
  obtain ⟨e, he⟩ : ∃ e, (events.mergeSort eventHeightLe).getLast? = some e := by
    cases hg : (events.mergeSort eventHeightLe).getLast? with
    | none => exact absurd (List.getLast?_eq_none_iff.mp hg) hsne
    | some e => exact ⟨e, rfl⟩
  have hsorted : (events.mergeSort eventHeightLe).Pairwise
      (fun a b => eventHeightLe a b = true) :=
    List.sorted_mergeSort
      (by
        intro a b c hab hbc
        simp only [eventHeightLe, decide_eq_true_eq] at *
        omega)
      (by
        intro a b
        simp only [eventHeightLe, Bool.or_eq_true, decide_eq_true_eq]
        omega)
      events
  have hmem : e ∈ events := hperm.mem_iff.mp (List.mem_of_mem_getLast? he)
  have hub : ∀ x ∈ events, eventBlockHeight x ≤ eventBlockHeight e := by
    intro x hx
    have hx2 : x ∈ events.mergeSort eventHeightLe := hperm.mem_iff.mpr hx
    rcases pairwiseGetLastTop _ e hsorted he x hx2 with rfl | hr
    · exact le_refl _
    · simpa only [eventHeightLe, decide_eq_true_eq] using hr
  have hmax : batchMaxHeight events = eventBlockHeight e := by
    apply le_antisymm
    · apply foldrMaxLe
      intro x hx
      rcases List.mem_map.mp hx with ⟨a, ha, rfl⟩
      exact hub a ha
    · exact leFoldrMax (List.mem_map.mpr ⟨e, hmem, rfl⟩)
  refine ⟨e, hmem, hmax.symm, ?_⟩
  unfold processStateUpdate
  rw [if_neg hstate, he, hmax]

/-- C2 witness: a singleton batch with one state event at height 10
advances all three watermark fields with MAX semantics. -/
theorem watermarkMaxSemanticsWitness :
    (stateEventsOf [WasmExportEvent.state "state:10:a:1"
        { codeId := 0, contractAddress := "a", blockHeight := 10,
          blockTimeUnixMs := 99, key := "1", value := "", valueJson := none,
          delete := false }]).length ≠ 0 ∧
    (∃ e ∈ [WasmExportEvent.state "state:10:a:1"
        { codeId := 0, contractAddress := "a", blockHeight := 10,
          blockTimeUnixMs := 99, key := "1", value := "", valueJson := none,
          delete := false }],
      eventBlockHeight e = batchMaxHeight [WasmExportEvent.state "state:10:a:1"
        { codeId := 0, contractAddress := "a", blockHeight := 10,
          blockTimeUnixMs := 99, key := "1", value := "", valueJson := none,
          delete := false }] ∧
      processStateUpdate ⟨1, 2, 3⟩ [WasmExportEvent.state "state:10:a:1"
        { codeId := 0, contractAddress := "a", blockHeight := 10,
          blockTimeUnixMs := 99, key := "1", value := "", valueJson := none,
          delete := false }] =
        { lastWasmBlockHeightExported := max 1 (batchMaxHeight
            [WasmExportEvent.state "state:10:a:1"
              { codeId := 0, contractAddress := "a", blockHeight := 10,
                blockTimeUnixMs := 99, key := "1", value := "",
                valueJson := none, delete := false }])
          latestBlockHeight := max 2 (batchMaxHeight
            [WasmExportEvent.state "state:10:a:1"
              { codeId := 0, contractAddress := "a", blockHeight := 10,
                blockTimeUnixMs := 99, key := "1", value := "",
                valueJson := none, delete := false }])
          latestBlockTimeUnixMs := max 3 (eventBlockTimeUnixMs e) }) :=
  ⟨by simp [stateEventsOf], watermarkMaxSemantics ⟨1, 2, 3⟩ _ (by simp [stateEventsOf])⟩

/-- C2 counterexample: a successful batch holding only a
contract-lifecycle event at height 10 returns before the watermark
update, so the stored watermark stays 0 instead of max(0, 10) = 10. -/
theorem watermarkContractOnlyCounterexample :
    processStateUpdate ⟨0, 0, 0⟩ [WasmExportEvent.contract "contract:10:a"
        { address := "a", codeId := 1, admin := "", creator := "",
          label := "", blockHeight := 10, blockTimeUnixMs := 99 }] =
      ⟨0, 0, 0⟩ ∧
    batchMaxHeight [WasmExportEvent.contract "contract:10:a"
        { address := "a", codeId := 1, admin := "", creator := "",
          label := "", blockHeight := 10, blockTimeUnixMs := 99 }] = 10 ∧
    (0 : Nat) ≠ max 0 10 := by
  refine ⟨rfl, rfl, by decide⟩

/-- C4: on a contract-info key with operation write, `match` drops the
record when the value does not decode as the ContractInfo protobuf or
decodes with a zero/missing code ID, and otherwise emits a contract event
carrying exactly the address, code ID, admin, creator, label, block
height and block time of the record. -/
theorem contractInfoMatch (hrp : String) (isTerraClassic : Bool)
    (ext : Externals) (trace : TraceRecord)
    (keyData addrBytes keyBytes valueBytes : List Nat)
    (hkey : base64Decode trace.key = some keyData)
    (hhead : keyData.head? = some (contractKeyPrefixByte isTerraClassic))
    (hparts : contractParts isTerraClassic keyData = some (addrBytes, keyBytes))
    (hop : trace.operation = .write)
    (hval : base64Decode trace.value = some valueBytes) :
    matchTrace hrp isTerraClassic ext trace =
      match ext.decodeContractInfo valueBytes with
      | none => .noEvent
      | some contractInfo =>
        if contractInfo.codeId = 0 then .noEvent
        else
          .event (.contract
            (String.intercalate ":"
              ["contract", toString trace.metadata.blockHeight,
                ext.toBech32 hrp addrBytes])
            { address := ext.toBech32 hrp addrBytes
              codeId := contractInfo.codeId
              admin := contractInfo.admin
              creator := contractInfo.creator
              label := contractInfo.label
              blockHeight := trace.metadata.blockHeight
              blockTimeUnixMs := trace.blockTimeUnixMs }) := by
  simp only [matchTrace, hkey, hhead, hparts, hop, hval]
  rw [if_neg (fun h => h.2 rfl), if_pos ⟨trivial, trivial⟩]

/-- C4 witness: a concrete contract-info write whose value decodes to
code ID 42 yields the contract event with all fields of the record. -/
theorem contractInfoMatchWitness :
    matchTrace "xion" false extConcrete traceContractInfoWrite =
      MatchResult.event (.contract
        (String.intercalate ":"
          ["contract", toString (100 : Nat),
            extConcrete.toBech32 "xion" (List.replicate 32 0)])
        { address := extConcrete.toBech32 "xion" (List.replicate 32 0)
          codeId := 42
          admin := "a"
          creator := "c"
          label := "L"
          blockHeight := 100
          blockTimeUnixMs := 1700 }) :=
  (contractInfoMatch "xion" false extConcrete traceContractInfoWrite
    (2 :: List.replicate 32 0) (List.replicate 32 0) [] [8, 42]
    (by decide) (by decide) (by decide) rfl (by decide)).trans rfl

/-- C10: a delete on a contract-info key is not dropped: it falls through
to the state branch and emits a state event with delete true, code ID 0
and empty canonical key. -/
theorem contractInfoDeleteStateEvent (hrp : String) (isTerraClassic : Bool)
    (ext : Externals) (trace : TraceRecord) (keyData addrBytes : List Nat)
    (hkey : base64Decode trace.key = some keyData)
    (hhead : keyData.head? = some (contractKeyPrefixByte isTerraClassic))
    (hparts : contractParts isTerraClassic keyData = some (addrBytes, []))
    (hop : trace.operation = .delete) :
    (matchedState (matchTrace hrp isTerraClassic ext trace)).map
        (fun d => (d.delete, d.codeId, d.key)) = some (true, 0, "") := by
  simp only [matchTrace, hkey, hhead, hparts, hop]
  rw [if_neg (fun h => h.2 rfl)]
  rw [if_neg (fun h => TraceOperation.noConfusion h.1)]
  rfl

/-- C10 witness: a concrete delete on a standard contract-info key
surfaces as a state event with delete true, code ID 0 and empty key. -/
theorem contractInfoDeleteStateEventWitness :
    (matchedState
        (matchTrace "xion" false extConcrete traceContractInfoDelete)).map
      (fun d => (d.delete, d.codeId, d.key)) = some (true, 0, "") :=
  contractInfoDeleteStateEvent "xion" false extConcrete
    traceContractInfoDelete (2 :: List.replicate 32 0) (List.replicate 32 0)
    (by decide) (by decide) (by decide) rfl

/-- C6: on Terra Classic the prefixes are 0x04/0x05 and a state key
0x05, length byte 0x14, a 20-byte address and user key bytes [9, 9]
decodes to exactly those 20 address bytes and canonical key "9,9". -/
theorem terraClassicKeyDecode (hrp : String) (ext : Externals)
    (trace : TraceRecord) (addr : List Nat)
    (hlen : addr.length = 20)
    (hkey : base64Decode trace.key = some (5 :: 20 :: (addr ++ [9, 9])))
    (hop : trace.operation = .write) :
    contractKeyPrefixByte true = 4 ∧
    contractStorePrefixByte true = 5 ∧
    (matchedState (matchTrace hrp true ext trace)).map
        (fun d => (d.contractAddress, d.key)) =
      some (ext.toBech32 hrp addr, "9,9") := by
  refine ⟨rfl, rfl, ?_⟩
  have h1 : (addr ++ [9, 9]).take 20 = addr := List.take_left' hlen
  have h2 : (addr ++ [9, 9]).drop 20 = [9, 9] := List.drop_left' hlen
  have hparts : contractParts true (5 :: 20 :: (addr ++ [9, 9])) =
      some (addr, [9, 9]) := by
    show (match (5 :: 20 :: (addr ++ [9, 9])).get? 1 with
      | none => some ([], 5 :: 20 :: (addr ++ [9, 9]))
      | some len =>
        if (5 :: 20 :: (addr ++ [9, 9])).length < 2 + len then none
        else some (((5 :: 20 :: (addr ++ [9, 9])).drop 2).take len,
          (5 :: 20 :: (addr ++ [9, 9])).drop (2 + len))) = some (addr, [9, 9])
    have hlt : ¬ (5 :: 20 :: (addr ++ [9, 9])).length < 2 + 20 := by
      simp [hlen]
    have h3 : (5 :: 20 :: (addr ++ [9, 9])).drop (2 + 20) =
        (addr ++ [9, 9]).drop 20 := rfl
    have h4 : (5 :: 20 :: (addr ++ [9, 9])).drop 2 = addr ++ [9, 9] := rfl
    simp only [List.get?_cons_succ, List.get?_cons_zero, if_neg hlt, h3, h4,
      h1, h2]
  simp only [matchTrace, hkey, hparts, hop, List.head?_cons]
  rw [if_neg (fun hc : (5 : Nat) ≠ contractStorePrefixByte true ∧
    (5 : Nat) ≠ contractKeyPrefixByte true => hc.1 rfl)]
  rw [if_neg (fun hc : True ∧ (5 : Nat) = contractKeyPrefixByte true =>
    absurd hc.2 (by decide))]
  rfl

/-- C6 witness: the Terra Classic decode at a concrete 20-byte zero
address. -/
theorem terraClassicKeyDecodeWitness :
    contractKeyPrefixByte true = 4 ∧
    contractStorePrefixByte true = 5 ∧
    (matchedState (matchTrace "terra" true extConcrete traceTerraState)).map
        (fun d => (d.contractAddress, d.key)) =
      some (extConcrete.toBech32 "terra" (List.replicate 20 0), "9,9") :=
  terraClassicKeyDecode "terra" extConcrete traceTerraState
    (List.replicate 20 0) (by decide) (by decide) rfl

/-- C5 (amended): on a state key whose value fails UTF-8 decoding, the
emitted state event keeps the original base64 string `trace.value`
verbatim as its value (the event is not dropped), and value_json is
`JSON.parse` applied to that same base64 string when the operation is not
delete (null when the parse fails), and null for every delete. -/
theorem stateValueDecodeAmended (hrp : String) (isTerraClassic : Bool)
    (ext : Externals) (trace : TraceRecord)
    (keyData addrBytes keyBytes valueBytes : List Nat)
    (hkey : base64Decode trace.key = some keyData)
    (hhead : keyData.head? = some (contractStorePrefixByte isTerraClassic))
    (hparts : contractParts isTerraClassic keyData = some (addrBytes, keyBytes))
    (hvne : trace.value ≠ "")
    (hval : base64Decode trace.value = some valueBytes)
    (hutf : utf8Decode valueBytes = none) :
    (matchedState (matchTrace hrp isTerraClassic ext trace)).map
        (fun d => (d.value, d.valueJson, d.delete)) =
      some (trace.value,
        (if trace.operation ≠ TraceOperation.delete then
          ext.jsonParse trace.value else none),
        decide (trace.operation = TraceOperation.delete)) := by
  simp only [matchTrace, hkey, hhead, hparts]
  rw [if_neg (fun hc :
    contractStorePrefixByte isTerraClassic ≠
        contractStorePrefixByte isTerraClassic ∧
      contractStorePrefixByte isTerraClassic ≠
        contractKeyPrefixByte isTerraClassic => hc.1 rfl)]
  rw [if_neg (fun hc : trace.operation = TraceOperation.write ∧
    contractStorePrefixByte isTerraClassic =
      contractKeyPrefixByte isTerraClassic =>
      absurd hc.2 (by cases isTerraClassic <;> decide))]
  simp only [matchedState, Option.map_some, if_neg hvne, hval, hutf,
    Option.getD_none]
  simp [hvne]

/-- C5 witness: the amended statement at the concrete non-UTF-8 value
base64 "1234". -/
theorem stateValueDecodeAmendedWitness :
    (matchedState (matchTrace "xion" false extConcrete traceStateNonUtf8)).map
        (fun d => (d.value, d.valueJson, d.delete)) =
      some (traceStateNonUtf8.value,
        (if traceStateNonUtf8.operation ≠ TraceOperation.delete then
          extConcrete.jsonParse traceStateNonUtf8.value else none),
        decide (traceStateNonUtf8.operation = TraceOperation.delete)) :=
  stateValueDecodeAmended "xion" false extConcrete traceStateNonUtf8
    (3 :: (List.replicate 32 0 ++ [7, 7, 7]))
    (List.replicate 32 0) [7, 7, 7] [215, 109, 248]
    (by decide) (by decide) (by decide) (by decide) (by decide) rfl

/-- C5 counterexample: the value base64 "1234" decodes to bytes that are
not UTF-8, yet the emitted state event's value is the base64 text
"1234" (not the raw bytes) and its value_json is non-null (the base64
text itself parses as the JSON number 1234), refuting both "value is the
raw bytes" and "value_json is null for every non-UTF-8 value". -/
theorem stateValueDecodeCounterexample :
    traceStateNonUtf8.value = "1234" ∧
    base64Decode "1234" = some [215, 109, 248] ∧
    utf8Decode [215, 109, 248] = none ∧
    (matchedState (matchTrace "xion" false extConcrete traceStateNonUtf8)).map
        (fun d => (d.value, d.valueJson.isSome)) = some ("1234", true) :=
  ⟨rfl, by decide, rfl, by decide⟩

/-- C8: keys shorter than the family minimum are rejected on standard
chains (one-byte key 0x02 yields nothing) but NOT on Terra Classic: the
one-byte key 0x05, where no length byte exists, slips past the length
guard (the JavaScript comparison against NaN is false) and emits a state
event with an empty address byte string and canonical key "5",
contradicting the "Ignore keys that are too short" intent stated in the
source comment. -/
theorem shortKeyGuardTerraBug :
    matchTrace "p" false extConcrete traceStdShortKey =
      MatchResult.noEvent ∧
    matchedState (matchTrace "terra" true extConcrete traceTerraShortKey) =
      some { codeId := 0, contractAddress := extConcrete.toBech32 "terra" [],
             blockHeight := 7, blockTimeUnixMs := 9, key := "5", value := "",
             valueJson := none, delete := false } :=
  ⟨rfl, rfl⟩

/-- C7: the resolver consults an LRU of capacity 1000 and returns the
cached value on a hit without touching the RPC; on a miss it makes at
most retriesMax = 3 attempts with exponential backoff from interval =
100 ms; a "contract not found" response returns 0 and caches 0; and when
every attempt fails with any other error it caches 0 and returns 0
instead of failing; insertion never grows the cache past its capacity. -/
theorem getCodeIdResolver :
    codeIdCacheMax = 1000 ∧
    getCodeIdRetryOptions =
      { retriesMax := 3, exponential := true, interval := 100 } ∧
    (∀ cache address codeId oracle, cacheGet cache address = some codeId →
      getCodeId cache address oracle = (codeId, cache)) ∧
    (∀ cache address oracle rest, cacheGet cache address = none →
      oracle = RpcOutcome.notFound :: rest →
      getCodeId cache address oracle = (0, cacheSet cache address 0)) ∧
    (∀ cache address rest, cacheGet cache address = none →
      getCodeId cache address
          (RpcOutcome.rpcError :: RpcOutcome.rpcError ::
            RpcOutcome.rpcError :: rest) =
        (0, cacheSet cache address 0)) ∧
    (∀ cache address codeId,
      (cacheSet cache address codeId).length ≤ codeIdCacheMax) := by
  refine ⟨rfl, rfl, ?_, ?_, ?_, ?_⟩
  · intro cache address codeId oracle hhit
    simp only [getCodeId, hhit]
  · intro cache address oracle rest hmiss horacle
    subst horacle
    simp only [getCodeId, hmiss, getCodeIdRetryOptions, List.take_succ_cons,
      retryLoadIntoCache, loadIntoCache, cacheGetCacheSetSelf,
      Option.getD_some]
  · intro cache address rest hmiss
    simp only [getCodeId, hmiss, getCodeIdRetryOptions, List.take_succ_cons,
      List.take_zero, retryLoadIntoCache, loadIntoCache,
      cacheGetCacheSetSelf, Option.getD_some]
  · intro cache address codeId
    simp only [cacheSet, List.length_take]
    exact Nat.min_le_left _ _

/-- C7 witness: a cache hit, a first-attempt not-found, and three failed
attempts, each at concrete inputs. -/
theorem getCodeIdResolverWitness :
    getCodeId [("c1", 7)] "c1" [] = (7, [("c1", 7)]) ∧
    getCodeId [] "c2" [RpcOutcome.notFound] = (0, cacheSet [] "c2" 0) ∧
    getCodeId [] "c3"
        [RpcOutcome.rpcError, RpcOutcome.rpcError, RpcOutcome.rpcError] =
      (0, cacheSet [] "c3" 0) :=
  ⟨getCodeIdResolver.2.2.1 [("c1", 7)] "c1" 7 [] rfl,
   getCodeIdResolver.2.2.2.1 [] "c2" [RpcOutcome.notFound] [] rfl rfl,
   getCodeIdResolver.2.2.2.2.1 [] "c3" [] rfl⟩

/-- C9 (amended): in the contract existence back-fill, an address with no
Contract row gets a row with code ID 0 whose instantiation fields come
from the FIRST event for that address in batch list order; when the batch
is sorted ascending by block height, that first event has the minimal
block height among the address's events. -/
theorem backfillFirstEvent (existingAddresses : List String)
    (stateEvents : List WasmStateEventData) (address : String)
    (event : WasmStateEventData)
    (hmem : address ∈ uniqueContracts stateEvents)
    (hnew : existingAddresses.contains address = false)
    (hfind : stateEvents.find? (fun e => e.contractAddress = address) =
      some event) :
    ({ address := address, codeId := 0,
       instantiatedAtBlockHeight := event.blockHeight,
       instantiatedAtBlockTimeUnixMs := event.blockTimeUnixMs } :
        ContractRow) ∈
      backfillInsertedContracts existingAddresses stateEvents ∧
    (stateEvents.Pairwise (fun a b => a.blockHeight ≤ b.blockHeight) →
      ∀ e ∈ stateEvents, e.contractAddress = address →
        event.blockHeight ≤ e.blockHeight) := by
  constructor
  · unfold backfillInsertedContracts
    rw [List.mem_filterMap]
    refine ⟨address, List.mem_filter.mpr ⟨hmem, ?_⟩, ?_⟩
    · simp only [List.contains_eq_any_beq, List.any_eq_false,
        beq_iff_eq] at hnew
      simp only [Bool.not_eq_true', List.contains_eq_any_beq,
        List.any_eq_false, beq_iff_eq]
      exact fun x hx => hnew x hx
    · unfold contractRowFromFirstEvent
      rw [hfind]
      rfl
  · intro hsorted e he heq
    rcases findFirstRel stateEvents event hsorted hfind e he (by simp [heq])
      with rfl | h
    · exact le_refl _
    · exact h

/-- C9 witness: an unseen address "a" is inserted with the fields of the
first listed event, and for sorted batches the first event is minimal. -/
theorem backfillFirstEventWitness :
    ({ address := "a", codeId := 0, instantiatedAtBlockHeight := 5,
       instantiatedAtBlockTimeUnixMs := 50 } : ContractRow) ∈
      backfillInsertedContracts [] [evA5, evA3] ∧
    ([evA5, evA3].Pairwise (fun a b => a.blockHeight ≤ b.blockHeight) →
      ∀ e ∈ [evA5, evA3], e.contractAddress = "a" →
        evA5.blockHeight ≤ e.blockHeight) :=
  backfillFirstEvent [] [evA5, evA3] "a" evA5 (by decide) rfl rfl

/-- C9 counterexample: with the height-5 event listed before the height-3
event for the same address, the inserted row carries height 5, not the
batch-minimal height 3. -/
theorem backfillFirstEventCounterexample :
    backfillInsertedContracts [] [evA5, evA3] =
      [{ address := "a", codeId := 0, instantiatedAtBlockHeight := 5,
         instantiatedAtBlockTimeUnixMs := 50 }] ∧
    evA3 ∈ [evA5, evA3] ∧ evA3.contractAddress = "a" ∧
    evA3.blockHeight = 3 ∧ (3 : Nat) < 5 :=
  ⟨by decide, List.mem_cons_of_mem _ (List.mem_cons_self _ _), rfl, rfl,
    by decide⟩

end DaoDaoIndexer
